import Mathlib

/-!
A shallow embedding of the Go package `date` (repository Hunsin/date):
a calendar-date value type with comparison, text formatting and parsing,
day difference and database scan/value adapters.

Conventions of the embedding:
* Go machine integers (`int`, `time.Month`, `time.Duration`) are modelled as
  `Int`; the only place 64-bit behaviour is observable is `time.Time.Sub`,
  which saturates its result to the `int64` nanosecond range, and that
  saturation is modelled explicitly (`clampDuration`).
* Go strings are modelled as `String` viewed as a sequence of characters
  (all texts the package handles are ASCII).
* Calls into the Go standard `time` library (`time.Parse`, `time.Date`,
  `time.Time.Sub`) are modelled from that library's documented behaviour,
  restricted to the features this package exercises.
* Fallible Go functions returning `(T, error)` are modelled as
  `T × Option DateError`; methods on `*Date` that may overwrite the receiver
  take the prior receiver value and return the new one.
-/

namespace GoDate

/-- Alias for `String`, needed in signatures declared under the `Date`
namespace, where the unqualified name `String` would resolve to the method
`Date.String`. -/
abbrev GoString : Type := String

/-- `type Date struct { Year int; Month time.Month; Day int }` (date.go).
`time.Month` is a defined type over `int`, so all three fields are `Int`. -/
structure Date where
  Year : Int
  Month : Int
  Day : Int
deriving DecidableEq

/-- `func (d Date) After(t Date) bool` (date.go): compare year, then month on
equal years, then day on equal months. -/
def Date.After (d t : Date) : Bool :=
  if d.Year ≠ t.Year then decide (d.Year > t.Year)
  else if d.Month ≠ t.Month then decide (d.Month > t.Month)
  else decide (d.Day > t.Day)

/-- `func (d Date) Before(t Date) bool` (date.go): `return t.After(d)`. -/
def Date.Before (d t : Date) : Bool :=
  t.After d

/-- `func (d Date) Equal(t Date) bool` (date.go):
`return !d.After(t) && !d.Before(t)`. -/
def Date.Equal (d t : Date) : Bool :=
  !d.After t && !d.Before t

/-- The character of a single decimal digit `n ≤ 9` (`'0' + n`). -/
def digitChar (n : Nat) : Char := Char.ofNat (48 + n)

/-- Decimal digit emission for `fmt`-style integer formatting: digits are
produced from the least significant end into an accumulator, exactly like
`fmt`'s integer formatter writes into its buffer from the right.  The first
argument is fuel that makes the recursion structural; `natDigits` supplies
enough fuel for any input. -/
def digitsLoop : Nat → Nat → List Char → List Char
  | 0, _, acc => acc
  | f + 1, n, acc =>
    if n < 10 then digitChar n :: acc
    else digitsLoop f (n / 10) (digitChar (n % 10) :: acc)

/-- The decimal digits of `n`, most significant first (no sign, no padding). -/
def natDigits (n : Nat) : List Char := digitsLoop (n + 1) n []

/-- The characters printed by `fmt.Sprintf` for an integer verb with a width:
`%4d` is `goFormatIntChars 4 false`, `%02d` is `goFormatIntChars 2 true`.
A value shorter than the width is padded on the left, with spaces before the
sign by default, or with zeros after the sign when the `0` flag is set. -/
def goFormatIntChars (width : Nat) (zeroPad : Bool) (n : Int) : List Char :=
  let digits := natDigits n.natAbs
  let sign : List Char := if n < 0 then ['-'] else []
  if width ≤ sign.length + digits.length then sign ++ digits
  else if zeroPad then
    sign ++ List.replicate (width - (sign.length + digits.length)) '0' ++ digits
  else
    List.replicate (width - (sign.length + digits.length)) ' ' ++ sign ++ digits

/-- `fmt.Sprintf` integer verb, as a `String`. -/
def goFormatInt (width : Nat) (zeroPad : Bool) (n : Int) : String :=
  String.mk (goFormatIntChars width zeroPad n)

/-- `func (d Date) String() string` (date.go):
`fmt.Sprintf("%4d-%02d-%02d", d.Year, d.Month, d.Day)` — the year is printed
right-justified in a width-4 field padded with spaces (`%4d` has no `0`
flag), month and day are zero-padded to two digits. -/
def Date.String (d : Date) : String :=
  goFormatInt 4 false d.Year ++ "-" ++ goFormatInt 2 true d.Month ++ "-" ++
    goFormatInt 2 true d.Day

/-- Error values arising in this package, each carrying the offending data:
`parseErr` models the `*time.ParseError` returned by `time.Parse` (it carries
the layout and the value being parsed), `formatErr` models the
`date: Unsupported format %s ...` error of `UnmarshalText` (carrying the
original input), and `scanTypeErr` models the
`date: Unsupport scanning type %T` error of `Scan` (carrying the name of the
offending runtime type). -/
inductive DateError where
  | parseErr (layout value : String)
  | formatErr (input : String)
  | scanTypeErr (typeName : String)
deriving DecidableEq

/-- The reference-layout chunks of the `time` package's layout language that
this repository's layouts use: `2006` (four-digit year), `01` (two-digit
month), `02` (two-digit day), `Jan` (abbreviated month name); every other
layout character is a literal that the input must match exactly. -/
inductive Chunk where
  | longYear
  | zeroMonth
  | zeroDay
  | monthAbbr
  | lit (c : Char)
deriving DecidableEq

/-- Splitting a layout string into chunks, as `time`'s `nextStdChunk` does,
restricted to the four chunk kinds above. -/
def layoutChunks : List Char → List Chunk
  | '2' :: '0' :: '0' :: '6' :: r => .longYear :: layoutChunks r
  | '0' :: '1' :: r => .zeroMonth :: layoutChunks r
  | '0' :: '2' :: r => .zeroDay :: layoutChunks r
  | 'J' :: 'a' :: 'n' :: r => .monthAbbr :: layoutChunks r
  | c :: r => .lit c :: layoutChunks r
  | [] => []

/-- Decimal-digit test, as `time`'s parser applies it to input bytes. -/
def isDigit (c : Char) : Bool := '0' ≤ c && c ≤ '9'

/-- The numeric value of a decimal digit character. -/
def digitVal (c : Char) : Nat := c.toNat - 48

/-- `time`'s `lookup` over the abbreviated month names `Jan` … `Dec`;
the comparison folds ASCII letter case, as `time`'s `match` does. -/
def monthLookup (a b c : Char) : Option Int :=
  match a.toLower, b.toLower, c.toLower with
  | 'j', 'a', 'n' => some 1
  | 'f', 'e', 'b' => some 2
  | 'm', 'a', 'r' => some 3
  | 'a', 'p', 'r' => some 4
  | 'm', 'a', 'y' => some 5
  | 'j', 'u', 'n' => some 6
  | 'j', 'u', 'l' => some 7
  | 'a', 'u', 'g' => some 8
  | 's', 'e', 'p' => some 9
  | 'o', 'c', 't' => some 10
  | 'n', 'o', 'v' => some 11
  | 'd', 'e', 'c' => some 12
  | _, _, _ => none

/-- The fields `time.Parse` accumulates that matter to this package.  In the
Go parser `year` starts at `0`, and `month`/`day` start at `-1` as "not seen"
sentinels, defaulted to `1` after the layout has been consumed. -/
structure PState where
  year : Int
  month : Int
  day : Int
deriving DecidableEq

/-- `isLeap(year)` from the `time` package.  Go computes the remainders with
truncated `%`; testing them against `0` is divisibility, for which the
euclidean `%` used here agrees. -/
def isLeap (y : Int) : Bool := y % 4 == 0 && (y % 100 != 0 || y % 400 == 0)

/-- `daysBefore` from the `time` package: `daysBefore m` counts the days in a
non-leap year before the month with number `m + 1`. -/
def daysBeforeTable : List Int :=
  [0, 31, 59, 90, 120, 151, 181, 212, 243, 273, 304, 334, 365]

/-- Array indexing into `daysBefore`; the code only indexes with `0 ≤ m ≤ 12`. -/
def daysBefore (m : Int) : Int := daysBeforeTable.getD m.toNat 0

/-- `daysIn(m, year)` from the `time` package: 29 for February of a leap year,
otherwise the difference of adjacent `daysBefore` entries. -/
def daysIn (m y : Int) : Int :=
  if m == 2 && isLeap y then 29 else daysBefore m - daysBefore (m - 1)

/-- The chunk-by-chunk core of `time.Parse`: each std chunk consumes a fixed
amount of input (`2006` four digits, `01`/`02` two digits with the month
immediately range-checked to 1…12 as in Go's parser, `Jan` three letters
looked up case-insensitively), a literal chunk consumes exactly itself, and
after the whole layout is consumed the input must be exhausted. -/
def runChunks : List Chunk → List Char → PState → Option PState
  | [], v, st => if v.isEmpty then some st else none
  | .longYear :: ks, c1 :: c2 :: c3 :: c4 :: v, st =>
    if isDigit c1 && isDigit c2 && isDigit c3 && isDigit c4 then
      runChunks ks v { st with
        year := ((1000 * digitVal c1 + 100 * digitVal c2 + 10 * digitVal c3 +
          digitVal c4 : Nat) : Int) }
    else none
  | .longYear :: _, _, _ => none
  | .zeroMonth :: ks, c1 :: c2 :: v, st =>
    if isDigit c1 && isDigit c2 then
      let m : Int := ((10 * digitVal c1 + digitVal c2 : Nat) : Int)
      if 1 ≤ m ∧ m ≤ 12 then runChunks ks v { st with month := m } else none
    else none
  | .zeroMonth :: _, _, _ => none
  | .zeroDay :: ks, c1 :: c2 :: v, st =>
    if isDigit c1 && isDigit c2 then
      runChunks ks v { st with day := ((10 * digitVal c1 + digitVal c2 : Nat) : Int) }
    else none
  | .zeroDay :: _, _, _ => none
  | .monthAbbr :: ks, c1 :: c2 :: c3 :: v, st =>
    match monthLookup c1 c2 c3 with
    | some m => runChunks ks v { st with month := m }
    | none => none
  | .monthAbbr :: _, _, _ => none
  | .lit c :: ks, c1 :: v, st => if c1 = c then runChunks ks v st else none
  | .lit _ :: _, [], _ => none

/-- `time.Parse(layout, value)` projected to the fields this package reads
from the resulting `time.Time`.  After the layout is consumed, Go defaults a
missing month and day to `1` and rejects a day outside `1 … daysIn(month,
year)`.  On success the fields are in range, so the final
`time.Date(year, month, day, …)` performs no renormalisation and
`t.Year(), t.Month(), t.Day()` are exactly the parsed numbers; the result is
therefore modelled as that triple.  Every failure of `time.Parse` is a
`*time.ParseError` carrying the layout and the value, modelled by
`DateError.parseErr`. -/
def timeParse (layout value : String) : Except DateError (Int × Int × Int) :=
  match runChunks (layoutChunks layout.data) value.data ⟨0, -1, -1⟩ with
  | none => .error (.parseErr layout value)
  | some st =>
    let month := if st.month < 0 then 1 else st.month
    let day := if st.day < 0 then 1 else st.day
    if 1 ≤ day ∧ day ≤ daysIn month st.year then .ok (st.year, month, day)
    else .error (.parseErr layout value)

/-- The projection of a `time.Time` value that this package consumes:
`t.Year()`, `t.Month()`, `t.Day()` in `t`'s location. -/
structure GoTime where
  year : Int
  month : Int
  day : Int
deriving DecidableEq

/-- `func Of(t time.Time) Date` (date.go):
`return Date{t.Year(), t.Month(), t.Day()}`. -/
def Of (t : GoTime) : Date := ⟨t.year, t.month, t.day⟩

/-- `func Parse(layout, d string) (Date, error)` (date.go): on a `time.Parse`
failure it returns the zero `Date{}` (all fields 0, since `time.Month`'s zero
value is 0) with the error, otherwise `Of` of the parsed time. -/
def Parse (layout s : String) : Date × Option DateError :=
  match timeParse layout s with
  | .ok (y, m, d) => (⟨y, m, d⟩, none)
  | .error e => (⟨0, 0, 0⟩, some e)

/-- The three layouts `UnmarshalText` tries, in source order (date.go). -/
def layouts : List String := ["2006-01-02", "2006/01/02", "02 Jan 2006"]

/-- The loop of `Date.UnmarshalText` (date.go):
`if *d, err = Parse(layout, string(b)); err == nil { return nil }` — the
receiver is assigned on every iteration, including failing ones (where
`Parse` returns the zero `Date`), and the loop returns on the first layout
that parses; when none does, the `date: Unsupported format %s …` error
carrying the original input is returned. -/
def unmarshalLoop (b : String) : Date → List String → Date × Option DateError
  | d, [] => (d, some (.formatErr b))
  | _, l :: ls =>
    let r := Parse l b
    if r.2 = none then r else unmarshalLoop b r.1 ls

/-- `func (d *Date) UnmarshalText(b []byte) error` (date.go). -/
def Date.UnmarshalText (d : Date) (b : GoString) : Date × Option DateError :=
  unmarshalLoop b d layouts

/-- `func (d Date) MarshalText() ([]byte, error)` (date.go): a copy of the
bytes of `d.String()`, and never an error. -/
def Date.MarshalText (d : Date) : GoString × Option DateError := (d.String, none)

/-- `func (d Date) Value() (driver.Value, error)` (date.go):
`return d.String(), nil`. -/
def Date.Value (d : Date) : GoString × Option DateError := (d.String, none)

/-- The runtime representations `Scan`'s type switch distinguishes: a
`time.Time`, a `[]byte`, a `string`, or any other type (identified by the
name `%T` would print for it). -/
inductive SQLValue where
  | time (t : GoTime)
  | bytes (s : String)
  | str (s : String)
  | other (typeName : String)

/-- `func (d *Date) Scan(v interface{}) error` (date.go): a `time.Time` is
projected via `Of`, `[]byte` and `string` both delegate to `UnmarshalText`,
and anything else fails with the unsupported-type error, leaving the
receiver untouched. -/
def Date.Scan (d : Date) (v : SQLValue) : Date × Option DateError :=
  match v with
  | .time t => (Of t, none)
  | .bytes s => d.UnmarshalText s
  | .str s => d.UnmarshalText s
  | .other ty => (d, some (.scanTypeErr ty))

/-- Nanoseconds per day. -/
def nsPerDay : Int := 86400000000000

/-- Largest `time.Duration` (`int64` nanoseconds). -/
def maxInt64 : Int := 9223372036854775807

/-- Smallest `time.Duration`. -/
def minInt64 : Int := -9223372036854775808

/-- `time.Time.Sub` computes the exact difference and saturates it to the
`int64` nanosecond range (its documented behaviour: "the maximum (or
minimum) duration will be returned" on overflow). -/
def clampDuration (v : Int) : Int :=
  if v < minInt64 then minInt64 else if maxInt64 < v then maxInt64 else v

/-- `int(dur.Hours() / 24)` for a duration of `dur` nanoseconds, i.e.
division by 24 hours truncated toward zero.  For every duration this package
produces — whole multiples of 24 h, or the two saturation constants — the
`float64` computation `dur.Hours() / 24` is exact enough that Go's `int(…)`
conversion (truncation toward zero) agrees with truncated integer division
by `nsPerDay`, which is how it is modelled. -/
def durationDays (dur : Int) : Int := Int.tdiv dur nsPerDay

/-- `absoluteZeroYear` from the `time` package. -/
def absoluteZeroYear : Int := -292277022399

/-- `daysSinceEpoch(year)` from the `time` package: days from the absolute
epoch to the start of `year`, accumulated from 400-year, 100-year and 4-year
cycles.  Go computes this in `uint64`; it is modelled over `Int` (the
wrap-around for years below the absolute zero year is not modelled). -/
def daysSinceEpoch (year : Int) : Int :=
  let y := year - absoluteZeroYear
  146097 * (y / 400) + 36524 * (y % 400 / 100) + 1461 * (y % 400 % 100 / 4) +
    365 * (y % 400 % 100 % 4)

/-- The day index of `time.Date(dt.Year, dt.Month, dt.Day, 0, 0, 0, 0, UTC)`:
the month is normalised into 1…12 by Go's `norm` (floor division/modulus,
adjusting the year), then days are accumulated as `daysSinceEpoch(year) +
daysBefore[month-1] + leap-day + (day-1)`; an out-of-range day is simply
added on, exactly as in `time.Date`. -/
def dayNumber (dt : Date) : Int :=
  let m0 := dt.Month - 1
  let y := dt.Year + m0 / 12
  let m := m0 % 12
  daysSinceEpoch y + daysBefore m + (if isLeap y = true ∧ 2 ≤ m then 1 else 0) +
    (dt.Day - 1)

/-- `func (d Date) Sub(t Date) int` (date.go): both dates are placed at
midnight UTC with `time.Date`, subtracted with `time.Time.Sub` (whose result
saturates to the `int64` nanosecond range), and converted with
`int(dt.Sub(tt).Hours() / 24)`.  The constant unix-epoch offset of the two
timestamps cancels in the subtraction, so only the day numbers matter. -/
def Date.Sub (d t : Date) : Int :=
  durationDays (clampDuration ((dayNumber d - dayNumber t) * nsPerDay))

/-- A `Date` whose fields name a real calendar day: month in range and day
within the month's length.  Used to state the consecutive-days property. -/
def ValidDate (d : Date) : Prop :=
  1 ≤ d.Month ∧ d.Month ≤ 12 ∧ 1 ≤ d.Day ∧ d.Day ≤ daysIn d.Month d.Year

instance : DecidablePred ValidDate := fun d => by
  unfold ValidDate; infer_instance

/-- The calendar successor of a date: the next day in the same month if the
month has one, else the first day of the next month, else January 1 of the
next year. -/
def nextDay (d : Date) : Date :=
  if d.Day < daysIn d.Month d.Year then ⟨d.Year, d.Month, d.Day + 1⟩
  else if d.Month < 12 then ⟨d.Year, d.Month + 1, 1⟩
  else ⟨d.Year + 1, 1, 1⟩

end GoDate

namespace GoDate

/-! Helper lemmas. -/

lemma after_iff (d t : Date) :
    d.After t = true ↔
      (d.Year > t.Year ∨ (d.Year = t.Year ∧
        (d.Month > t.Month ∨ (d.Month = t.Month ∧ d.Day > t.Day)))) := by
  unfold Date.After
  split_ifs with h1 h2 <;> simp <;> omega

lemma equal_iff_fields (d t : Date) :
    d.Equal t = true ↔ d.Year = t.Year ∧ d.Month = t.Month ∧ d.Day = t.Day := by
  unfold Date.Equal Date.Before
  simp only [Bool.and_eq_true, Bool.not_eq_true']
  rw [Bool.eq_false_iff, Bool.eq_false_iff]
  simp only [Ne, after_iff]
  omega

end GoDate

namespace GoDate

/-- C7: for all Dates d and t, `d.After t` is true exactly when the tuple
(Year, Month, Day) of d is lexicographically greater than that of t — year
first, then month on equal years, then day on equal months — and `Before` is
the exact mirror: `d.Before t = t.After d`, hence `a.After b = b.Before a`. -/
theorem after_before_lexicographic :
    ∀ d t : Date,
      (d.After t = true ↔
        (d.Year > t.Year ∨ (d.Year = t.Year ∧
          (d.Month > t.Month ∨ (d.Month = t.Month ∧ d.Day > t.Day))))) ∧
      d.Before t = t.After d ∧
      d.After t = t.Before d := by
  intro d t
  exact ⟨after_iff d t, rfl, rfl⟩

/-- C8: `d.Equal t` holds iff neither `d.After t` nor `d.Before t` does,
equivalently iff all three fields agree; `Equal` is reflexive, symmetric and
transitive, and `After` is transitive. -/
theorem equal_equivalence_after_transitive :
    ∀ a b c : Date,
      (a.Equal b = true ↔ a.After b = false ∧ a.Before b = false) ∧
      (a.Equal b = true ↔ a.Year = b.Year ∧ a.Month = b.Month ∧ a.Day = b.Day) ∧
      a.Equal a = true ∧
      (a.Equal b = true → b.Equal a = true) ∧
      (a.Equal b = true → b.Equal c = true → a.Equal c = true) ∧
      (a.After b = true → b.After c = true → a.After c = true) := by
  intro a b c
  refine ⟨?_, equal_iff_fields a b, ?_, ?_, ?_, ?_⟩
  · unfold Date.Equal
    simp only [Bool.and_eq_true, Bool.not_eq_true']
  · simp [equal_iff_fields]
  · simp only [equal_iff_fields]
    omega
  · simp only [equal_iff_fields]
    omega
  · simp only [after_iff]
    omega

/-- C8 witness: the theorem applied at concrete dates, discharging the
hypotheses of the transitivity conjuncts. -/
theorem equal_equivalence_after_transitive_witness :
    (Date.mk 2001 3 5).Equal (Date.mk 2001 3 5) = true ∧
    (Date.mk 2009 11 15).After (Date.mk 2001 3 5) = true :=
  ⟨(equal_equivalence_after_transitive (Date.mk 2001 3 5) (Date.mk 2001 3 5)
      (Date.mk 2001 3 5)).2.2.2.2.1 (by decide) (by decide),
   (equal_equivalence_after_transitive (Date.mk 2009 11 15) (Date.mk 2005 1 1)
      (Date.mk 2001 3 5)).2.2.2.2.2 (by decide) (by decide)⟩

/-- C4: `Scan` dispatches on the runtime representation of its input: a
`time.Time` is projected to year/month/day via `Of` and the scan succeeds, a
byte sequence is decoded as text and delegated to the three-layout
`UnmarshalText`, a string behaves identically to the equivalent byte
sequence, and any other input type fails with an error naming that type. -/
theorem scan_dispatch :
    ∀ (d : Date) (t : GoTime) (s ty : String),
      d.Scan (.time t) = (Of t, none) ∧
      d.Scan (.bytes s) = d.UnmarshalText s ∧
      d.Scan (.str s) = d.Scan (.bytes s) ∧
      d.Scan (.other ty) = (d, some (.scanTypeErr ty)) := by
  intro d t s ty
  exact ⟨rfl, rfl, rfl, rfl⟩

/-- C9: `Scan` on an input of an unsupported runtime type returns the
unsupported-type error naming that type and leaves the receiver exactly
unchanged. -/
theorem scan_unsupported_type_frame :
    ∀ (d : Date) (ty : String),
      (d.Scan (.other ty)).1 = d ∧
      (d.Scan (.other ty)).2 = some (.scanTypeErr ty) := by
  intro d ty
  exact ⟨rfl, rfl⟩

/-- C10: whenever the underlying `time.Parse` fails, `Parse` returns the zero
Date (all three fields 0) together with the non-nil error. -/
theorem parse_zero_date_on_failure :
    ∀ (layout s : String) (e : DateError),
      timeParse layout s = .error e → Parse layout s = (⟨0, 0, 0⟩, some e) := by
  intro layout s e h
  unfold Parse
  rw [h]

/-- C10 witness: the theorem applied at a concrete failing parse. -/
theorem parse_zero_date_on_failure_witness :
    timeParse "2006-01-02" "bad" = .error (.parseErr "2006-01-02" "bad") ∧
    Parse "2006-01-02" "bad" =
      (⟨0, 0, 0⟩, some (.parseErr "2006-01-02" "bad")) :=
  ⟨rfl, parse_zero_date_on_failure "2006-01-02" "bad" _ rfl⟩

end GoDate

namespace GoDate

lemma timeParse_error_shape (l b : String) (e : DateError)
    (h : timeParse l b = .error e) : e = .parseErr l b := by
  unfold timeParse at h
  split at h
  · exact (by simpa using h.symm)
  · dsimp only at h
    repeat' split at h
    all_goals simp_all

lemma parse_eq_of_fail (l b : String) (h : (Parse l b).2 ≠ none) :
    Parse l b = (⟨0, 0, 0⟩, some (.parseErr l b)) := by
  unfold Parse at *
  cases ht : timeParse l b with
  | ok t =>
    rw [ht] at h
    obtain ⟨y, m, d⟩ := t
    simp at h
  | error e =>
    rw [timeParse_error_shape l b e ht]

/-- C5: `UnmarshalText` tries exactly the layouts `2006-01-02`, `2006/01/02`
and `02 Jan 2006` in that order, the first successful `Parse` winning; the
three sample texts all unmarshal to Date 2009-11-15, and an input matching
no layout fails with the error carrying the original input. -/
theorem unmarshal_three_layouts_in_order :
    ∀ (d : Date) (b : String),
      ((Parse "2006-01-02" b).2 = none →
        d.UnmarshalText b = Parse "2006-01-02" b) ∧
      ((Parse "2006-01-02" b).2 ≠ none → (Parse "2006/01/02" b).2 = none →
        d.UnmarshalText b = Parse "2006/01/02" b) ∧
      ((Parse "2006-01-02" b).2 ≠ none → (Parse "2006/01/02" b).2 ≠ none →
        (Parse "02 Jan 2006" b).2 = none →
        d.UnmarshalText b = Parse "02 Jan 2006" b) ∧
      ((Parse "2006-01-02" b).2 ≠ none → (Parse "2006/01/02" b).2 ≠ none →
        (Parse "02 Jan 2006" b).2 ≠ none →
        (d.UnmarshalText b).2 = some (.formatErr b)) ∧
      d.UnmarshalText "2009-11-15" = (⟨2009, 11, 15⟩, none) ∧
      d.UnmarshalText "2009/11/15" = (⟨2009, 11, 15⟩, none) ∧
      d.UnmarshalText "15 Nov 2009" = (⟨2009, 11, 15⟩, none) ∧
      (d.UnmarshalText "not-a-date").2 = some (.formatErr "not-a-date") := by
  intro d b
  refine ⟨?_, ?_, ?_, ?_, rfl, rfl, rfl, rfl⟩
  · intro h1
    simp [Date.UnmarshalText, layouts, unmarshalLoop, h1]
  · intro h1 h2
    simp [Date.UnmarshalText, layouts, unmarshalLoop, h1, h2]
  · intro h1 h2 h3
    simp [Date.UnmarshalText, layouts, unmarshalLoop, h1, h2, h3]
  · intro h1 h2 h3
    simp [Date.UnmarshalText, layouts, unmarshalLoop, h1, h2, h3]

/-- C5 witness: the second layout wins on `2009/11/15` for an arbitrary
concrete receiver, with the hypotheses discharged by computation. -/
theorem unmarshal_three_layouts_in_order_witness :
    (Parse "2006-01-02" "2009/11/15").2 ≠ none ∧
    (Parse "2006/01/02" "2009/11/15").2 = none ∧
    (Date.mk 0 0 0).UnmarshalText "2009/11/15" =
      Parse "2006/01/02" "2009/11/15" :=
  ⟨by decide, by decide,
   (unmarshal_three_layouts_in_order (Date.mk 0 0 0) "2009/11/15").2.1
     (by decide) (by decide)⟩

/-- C3 counterexample: `UnmarshalText` on a failing input does not keep the
receiver's prior value — the loop assignment `*d, err = Parse(...)`
overwrites it with the zero Date returned by the last failing `Parse`. -/
theorem unmarshal_failure_overwrites_receiver :
    ((Date.mk 2001 3 5).UnmarshalText "not-a-date").1 ≠ Date.mk 2001 3 5 ∧
    (Date.mk 2001 3 5).UnmarshalText "not-a-date" =
      (⟨0, 0, 0⟩, some (.formatErr "not-a-date")) :=
  ⟨by decide, by decide⟩

/-- C3 (amended): when `UnmarshalText` fails, the receiver is left holding
the zero Date (the value written by the last failing `Parse`), whatever its
prior value was. -/
theorem unmarshal_failure_leaves_zero_date :
    ∀ (d : Date) (b : String),
      (d.UnmarshalText b).2 ≠ none → (d.UnmarshalText b).1 = ⟨0, 0, 0⟩ := by
  intro d b h
  by_cases h1 : (Parse "2006-01-02" b).2 = none
  · exact absurd (by simp [Date.UnmarshalText, layouts, unmarshalLoop, h1]) h
  · by_cases h2 : (Parse "2006/01/02" b).2 = none
    · exact absurd (by simp [Date.UnmarshalText, layouts, unmarshalLoop, h1, h2]) h
    · by_cases h3 : (Parse "02 Jan 2006" b).2 = none
      · exact absurd
          (by simp [Date.UnmarshalText, layouts, unmarshalLoop, h1, h2, h3]) h
      · have e3 := parse_eq_of_fail "02 Jan 2006" b h3
        simp [Date.UnmarshalText, layouts, unmarshalLoop, h1, h2, h3, e3]

/-- C3 witness: the amended theorem applied at a concrete receiver and a
concrete failing input. -/
theorem unmarshal_failure_leaves_zero_date_witness :
    ((Date.mk 2001 3 5).UnmarshalText "not-a-date").2 ≠ none ∧
    ((Date.mk 2001 3 5).UnmarshalText "not-a-date").1 = ⟨0, 0, 0⟩ :=
  ⟨by decide,
   unmarshal_failure_leaves_zero_date (Date.mk 2001 3 5) "not-a-date" (by decide)⟩

end GoDate

namespace GoDate

lemma goFormatIntChars_length (w : Nat) (z : Bool) (n : Int) :
    w ≤ (goFormatIntChars w z n).length := by
  unfold goFormatIntChars
  dsimp only
  split_ifs <;> simp_all [List.length_append, List.length_replicate] <;> omega

/-- C1 counterexample: the year verb of `String()` is `%4d`, which pads with
spaces, not zeros, so `Date{7, January, 3}.String()` is `"   7-01-03"` and
not the zero-padded `"0007-01-03"` the claim asserts. -/
theorem string_not_zero_padded :
    (Date.mk 7 1 3).String ≠ "0007-01-03" ∧
    (Date.mk 7 1 3).String = "   7-01-03" :=
  ⟨by decide, by decide⟩

/-- C1 (amended): `String()`, `MarshalText` and `Value` all produce the same
text and never return an error; the text is at least 10 characters, with the
year right-justified in a width-4 field padded with spaces (`%4d`) and month
and day zero-padded to exactly two digits (`%02d`); in particular
`Date{7, January, 3}.String()` is `"   7-01-03"` and
`Date{2001, March, 5}.String()` is `"2001-03-05"`. -/
theorem string_marshal_value_agree :
    ∀ d : Date,
      d.MarshalText = (d.String, none) ∧
      d.Value = (d.String, none) ∧
      10 ≤ d.String.length ∧
      (Date.mk 7 1 3).String = "   7-01-03" ∧
      (Date.mk 2001 3 5).String = "2001-03-05" := by
  intro d
  refine ⟨rfl, rfl, ?_, by decide, by decide⟩
  have h1 := goFormatIntChars_length 4 false d.Year
  have h2 := goFormatIntChars_length 2 true d.Month
  have h3 := goFormatIntChars_length 2 true d.Day
  have e : d.String.length = d.String.data.length := rfl
  rw [e, Date.String]
  simp [String.data_append, List.length_append, goFormatInt]
  omega

end GoDate

namespace GoDate

lemma digitsLoop_small (f n : Nat) (acc : List Char) (h : n < 10) :
    digitsLoop (f + 1) n acc = digitChar n :: acc := by
  simp [digitsLoop, h]

lemma digitsLoop_small' (f n : Nat) (acc : List Char) (hf : 0 < f)
    (h : n < 10) : digitsLoop f n acc = digitChar n :: acc := by
  cases f with
  | zero => omega
  | succ f => exact digitsLoop_small f n acc h

lemma digitsLoop_big (f n : Nat) (acc : List Char) (h : 10 ≤ n) :
    digitsLoop (f + 1) n acc = digitsLoop f (n / 10) (digitChar (n % 10) :: acc) := by
  rw [digitsLoop]
  rw [if_neg (by omega)]

lemma digitsLoop_big' (f n : Nat) (acc : List Char) (hf : 0 < f) (h : 10 ≤ n) :
    digitsLoop f n acc = digitsLoop (f - 1) (n / 10) (digitChar (n % 10) :: acc) := by
  cases f with
  | zero => omega
  | succ f => exact digitsLoop_big f n acc h

lemma natDigits_one (n : Nat) (h : n < 10) : natDigits n = [digitChar n] := by
  unfold natDigits
  exact digitsLoop_small n n [] h

lemma natDigits_two (n : Nat) (h1 : 10 ≤ n) (h2 : n ≤ 99) :
    natDigits n = [digitChar (n / 10), digitChar (n % 10)] := by
  unfold natDigits
  rw [digitsLoop_big n n [] h1]
  rw [digitsLoop_small' n (n / 10) _ (by omega) (by omega)]

lemma natDigits_four (n : Nat) (h1 : 1000 ≤ n) (h2 : n ≤ 9999) :
    natDigits n = [digitChar (n / 1000), digitChar (n / 100 % 10),
      digitChar (n / 10 % 10), digitChar (n % 10)] := by
  have e2 : n / 10 / 10 = n / 100 := by omega
  have e3 : n / 100 / 10 = n / 1000 := by omega
  unfold natDigits
  rw [digitsLoop_big n n [] (by omega)]
  rw [digitsLoop_big' n (n / 10) _ (by omega) (by omega), e2]
  rw [digitsLoop_big' (n - 1) (n / 100) _ (by omega) (by omega), e3]
  rw [digitsLoop_small' (n - 1 - 1) (n / 1000) _ (by omega) (by omega)]

lemma digitChar_spec (k : Nat) (h : k ≤ 9) :
    isDigit (digitChar k) = true ∧ digitVal (digitChar k) = k := by
  interval_cases k <;> exact ⟨rfl, rfl⟩

lemma goFormatIntChars_two (n : Nat) (h1 : 1 ≤ n) (h2 : n ≤ 99) :
    goFormatIntChars 2 true (n : Int) = [digitChar (n / 10), digitChar (n % 10)] := by
  have hneg : ¬((n : Int) < 0) := by omega
  have habs : (n : Int).natAbs = n := Int.natAbs_ofNat n
  rcases Nat.lt_or_ge n 10 with h | h
  · have hd : natDigits n = [digitChar n] := natDigits_one n h
    have h0 : n / 10 = 0 := by omega
    have hm : n % 10 = n := by omega
    simp [goFormatIntChars, habs, hneg, hd, h0, hm, digitChar]
  · have hd := natDigits_two n h h2
    simp [goFormatIntChars, habs, hneg, hd]

lemma goFormatIntChars_four (n : Nat) (h1 : 1000 ≤ n) (h2 : n ≤ 9999) :
    goFormatIntChars 4 false (n : Int) = [digitChar (n / 1000),
      digitChar (n / 100 % 10), digitChar (n / 10 % 10), digitChar (n % 10)] := by
  have hneg : ¬((n : Int) < 0) := by omega
  have habs : (n : Int).natAbs = n := Int.natAbs_ofNat n
  have hd := natDigits_four n h1 h2
  simp [goFormatIntChars, habs, hneg, hd]

lemma string_data_decomposition (d : Date) :
    d.String.data = goFormatIntChars 4 false d.Year ++
      '-' :: (goFormatIntChars 2 true d.Month ++
        '-' :: goFormatIntChars 2 true d.Day) := by
  simp [Date.String, goFormatInt, String.data_append]

end GoDate

namespace GoDate

lemma parse_canonical (y m dd : Nat)
    (hy1 : 1000 ≤ y) (hy2 : y ≤ 9999) (hm1 : 1 ≤ m) (hm2 : m ≤ 12)
    (hd1 : 1 ≤ dd) (hd2 : dd ≤ 99)
    (hdays : (dd : Int) ≤ daysIn (m : Int) (y : Int)) :
    Parse "2006-01-02" (Date.String ⟨(y : Int), (m : Int), (dd : Int)⟩) =
      (⟨(y : Int), (m : Int), (dd : Int)⟩, none) := by
  obtain ⟨i1, v1⟩ := digitChar_spec (y / 1000) (by omega)
  obtain ⟨i2, v2⟩ := digitChar_spec (y / 100 % 10) (by omega)
  obtain ⟨i3, v3⟩ := digitChar_spec (y / 10 % 10) (by omega)
  obtain ⟨i4, v4⟩ := digitChar_spec (y % 10) (by omega)
  obtain ⟨j1, w1⟩ := digitChar_spec (m / 10) (by omega)
  obtain ⟨j2, w2⟩ := digitChar_spec (m % 10) (by omega)
  obtain ⟨k1, x1⟩ := digitChar_spec (dd / 10) (by omega)
  obtain ⟨k2, x2⟩ := digitChar_spec (dd % 10) (by omega)
  have hstr : (Date.String ⟨(y : Int), (m : Int), (dd : Int)⟩).data =
      digitChar (y / 1000) :: digitChar (y / 100 % 10) ::
      digitChar (y / 10 % 10) :: digitChar (y % 10) :: '-' ::
      digitChar (m / 10) :: digitChar (m % 10) :: '-' ::
      digitChar (dd / 10) :: digitChar (dd % 10) :: [] := by
    rw [string_data_decomposition]
    dsimp only
    rw [goFormatIntChars_four y hy1 hy2, goFormatIntChars_two m hm1 (by omega),
      goFormatIntChars_two dd hd1 hd2]
    simp
  have hyval : 1000 * (y / 1000) + 100 * (y / 100 % 10) + 10 * (y / 10 % 10) +
      y % 10 = y := by omega
  have hmval : 10 * (m / 10) + m % 10 = m := by omega
  have hdval : 10 * (dd / 10) + dd % 10 = dd := by omega
  have hm12 : (1 : Int) ≤ (m : Int) ∧ (m : Int) ≤ 12 := by omega
  have hmn : ¬((m : Int) < 0) := by omega
  have hdn : ¬((dd : Int) < 0) := by omega
  have hday : (1 : Int) ≤ (dd : Int) ∧ (dd : Int) ≤ daysIn (m : Int) (y : Int) :=
    ⟨by omega, hdays⟩
  unfold Parse timeParse
  rw [hstr]
  rw [show layoutChunks ("2006-01-02".data) =
    [Chunk.longYear, Chunk.lit '-', Chunk.zeroMonth, Chunk.lit '-',
      Chunk.zeroDay] from rfl]
  simp [runChunks, i1, i2, i3, i4, j1, j2, k1, k2, v1, v2, v3, v4, w1, w2,
    x1, x2, hyval, hmval, hdval, hm12, hmn, hdn, hday]

end GoDate

namespace GoDate

lemma daysIn_le_31 (m y : Int) (h1 : 1 ≤ m) (h2 : m ≤ 12) : daysIn m y ≤ 31 := by
  interval_cases m <;> unfold daysIn <;> split_ifs <;> decide

/-- C2 counterexample: the claim has no range precondition, but already for
`Date{7, January, 3}` the round trip fails — `String()` space-pads the year
(`"   7-01-03"`), which the canonical layout `2006-01-02` rejects, so `Parse`
returns the zero Date and an error rather than the original date. -/
theorem parse_string_roundtrip_counterexample :
    Parse "2006-01-02" ((Date.mk 7 1 3).String) ≠ (Date.mk 7 1 3, none) ∧
    Parse "2006-01-02" ((Date.mk 7 1 3).String) =
      (⟨0, 0, 0⟩, some (.parseErr "2006-01-02" "   7-01-03")) :=
  ⟨by decide, by decide⟩

/-- C2 (amended): for every Date d whose fields name a real calendar day and
whose year lies in 1000…9999 (so that `%4d` prints exactly the four year
digits with no padding), `Parse` with the canonical layout on `d.String()`
succeeds and returns a Date equal to d. -/
theorem parse_string_roundtrip :
    ∀ d : Date, 1000 ≤ d.Year → d.Year ≤ 9999 → 1 ≤ d.Month → d.Month ≤ 12 →
      1 ≤ d.Day → d.Day ≤ daysIn d.Month d.Year →
      Parse "2006-01-02" d.String = (d, none) := by
  intro d h1 h2 h3 h4 h5 h6
  obtain ⟨Y, M, D⟩ := d
  dsimp only at h1 h2 h3 h4 h5 h6 ⊢
  have h31 : daysIn M Y ≤ 31 := daysIn_le_31 M Y h3 h4
  obtain ⟨y, rfl⟩ : ∃ y : Nat, Y = (y : Int) := ⟨Y.toNat, by omega⟩
  obtain ⟨m, rfl⟩ : ∃ m : Nat, M = (m : Int) := ⟨M.toNat, by omega⟩
  obtain ⟨dd, rfl⟩ : ∃ k : Nat, D = (k : Int) := ⟨D.toNat, by omega⟩
  exact parse_canonical y m dd (by omega) (by omega) (by omega) (by omega)
    (by omega) (by omega) h6

/-- C2 witness: the amended theorem applied at the concrete date 2009-11-15,
with the range hypotheses discharged by computation. -/
theorem parse_string_roundtrip_witness :
    (1000 : Int) ≤ 2009 ∧ (15 : Int) ≤ daysIn 11 2009 ∧
    Parse "2006-01-02" (Date.mk 2009 11 15).String =
      (Date.mk 2009 11 15, none) :=
  ⟨by decide, by decide,
   parse_string_roundtrip (Date.mk 2009 11 15) (by decide) (by decide)
     (by decide) (by decide) (by decide) (by decide)⟩

end GoDate

namespace GoDate

lemma dayNumber_eq (Y M D : Int) (h1 : 1 ≤ M) (h2 : M ≤ 12) :
    dayNumber ⟨Y, M, D⟩ = daysSinceEpoch Y + daysBefore (M - 1) +
      (if isLeap Y = true ∧ 3 ≤ M then 1 else 0) + (D - 1) := by
  have e1 : (M - 1) / 12 = 0 := by omega
  have e2 : (M - 1) % 12 = M - 1 := by omega
  have e3 : (isLeap Y = true ∧ 2 ≤ M - 1) ↔ (isLeap Y = true ∧ 3 ≤ M) := by
    constructor <;> rintro ⟨a, b⟩ <;> exact ⟨a, by omega⟩
  simp only [dayNumber]
  rw [e1, e2]
  simp only [e3, add_zero]

lemma daysSinceEpoch_succ (y : Int) :
    daysSinceEpoch (y + 1) =
      daysSinceEpoch y + 365 + (if isLeap y = true then 1 else 0) := by
  by_cases h : isLeap y = true
  · rw [if_pos h]
    unfold isLeap at h
    simp only [Bool.and_eq_true, beq_iff_eq, Bool.or_eq_true, bne_iff_ne] at h
    simp only [daysSinceEpoch, absoluteZeroYear]
    omega
  · rw [if_neg h]
    unfold isLeap at h
    simp only [Bool.and_eq_true, beq_iff_eq, Bool.or_eq_true, bne_iff_ne,
      not_and, not_or, not_not] at h
    simp only [daysSinceEpoch, absoluteZeroYear]
    omega

end GoDate

namespace GoDate

lemma dayNumber_nextDay (d : Date) (h : ValidDate d) :
    dayNumber (nextDay d) = dayNumber d + 1 := by
  obtain ⟨hm1, hm2, hd1, hd2⟩ := h
  obtain ⟨Y, M, D⟩ := d
  dsimp only at hm1 hm2 hd1 hd2
  unfold nextDay
  dsimp only
  split_ifs with hlt hm12
  · rw [dayNumber_eq Y M (D + 1) hm1 hm2, dayNumber_eq Y M D hm1 hm2]
    ring
  · have hD : D = daysIn M Y := by omega
    rw [dayNumber_eq Y (M + 1) 1 (by omega) (by omega),
      dayNumber_eq Y M D hm1 hm2, hD]
    have hmr : 1 ≤ M ∧ M ≤ 11 := ⟨hm1, by omega⟩
    obtain ⟨hma, hmb⟩ := hmr
    interval_cases M <;>
      by_cases hL : isLeap Y = true <;>
        simp [daysIn, daysBefore, daysBeforeTable, hL] <;> omega
  · have hM : M = 12 := by omega
    have hD : D = 31 := by
      have : daysIn M Y = 31 := by
        rw [hM]; unfold daysIn; split_ifs with hc
        · simp at hc
        · decide
      omega
    rw [hM, hD, dayNumber_eq (Y + 1) 1 1 (by omega) (by omega),
      dayNumber_eq Y 12 31 (by omega) (by omega), daysSinceEpoch_succ Y]
    by_cases hL : isLeap Y = true <;>
      simp [daysBefore, daysBeforeTable, hL] <;> omega

end GoDate

namespace GoDate

lemma durationDays_clamp_neg (v : Int) :
    durationDays (clampDuration (-v)) = -durationDays (clampDuration v) := by
  by_cases hle : v ≤ minInt64
  · have e1 : clampDuration v = minInt64 := by
      unfold clampDuration minInt64 maxInt64 at *
      split_ifs <;> omega
    have e2 : clampDuration (-v) = maxInt64 := by
      unfold clampDuration minInt64 maxInt64 at *
      split_ifs <;> omega
    rw [e1, e2]
    decide
  · by_cases hgt : maxInt64 < v
    · have e1 : clampDuration v = maxInt64 := by
        unfold clampDuration minInt64 maxInt64 at *
        split_ifs <;> omega
      have e2 : clampDuration (-v) = minInt64 := by
        unfold clampDuration minInt64 maxInt64 at *
        split_ifs <;> omega
      rw [e1, e2]
      decide
    · have e1 : clampDuration v = v := by
        unfold clampDuration minInt64 maxInt64 at *
        split_ifs <;> omega
      have e2 : clampDuration (-v) = -v := by
        unfold clampDuration minInt64 maxInt64 at *
        split_ifs <;> omega
      rw [e1, e2]
      exact Int.neg_tdiv v nsPerDay

/-- C6: `Sub` is antisymmetric (`a.Sub b = -(b.Sub a)`), zero on equal
arguments, and maps every pair of consecutive calendar days to exactly 1;
`Sub` is the signed whole-day difference obtained by placing both dates at
midnight UTC, subtracting (with `time`'s saturation to the int64 nanosecond
range), and dividing the duration by 24 h truncating toward zero. -/
theorem sub_antisymmetric_zero_consecutive :
    (∀ a b : Date, a.Sub b = -(b.Sub a)) ∧
    (∀ a : Date, a.Sub a = 0) ∧
    (∀ d : Date, ValidDate d → (nextDay d).Sub d = 1) := by
  refine ⟨?_, ?_, ?_⟩
  · intro a b
    unfold Date.Sub
    rw [show (dayNumber a - dayNumber b) * nsPerDay =
      -((dayNumber b - dayNumber a) * nsPerDay) by ring]
    rw [durationDays_clamp_neg]
  · intro a
    unfold Date.Sub
    rw [show (dayNumber a - dayNumber a) * nsPerDay = 0 by ring]
    decide
  · intro d h
    unfold Date.Sub
    rw [dayNumber_nextDay d h]
    rw [show (dayNumber d + 1 - dayNumber d) * nsPerDay = nsPerDay by ring]
    decide

/-- C6 witness: the consecutive-day conjunct applied at 2020-02-28 (whose
successor is the leap day 2020-02-29), with validity discharged by
computation. -/
theorem sub_antisymmetric_zero_consecutive_witness :
    ValidDate (Date.mk 2020 2 28) ∧
    nextDay (Date.mk 2020 2 28) = Date.mk 2020 2 29 ∧
    (nextDay (Date.mk 2020 2 28)).Sub (Date.mk 2020 2 28) = 1 :=
  ⟨by decide, by decide,
   sub_antisymmetric_zero_consecutive.2.2 (Date.mk 2020 2 28) (by decide)⟩

end GoDate
